import Mathlib

/-!
Verification development for the swap-execution and confirmation pipeline of the
`solana_scripts` repository.  The definitions below are a shallow embedding of the
functions in `src/get-tokens.js` (swap script portion): `checkTransactionStatus`
(lines 459-499), `executeSwap` (lines 502-634), `findTokenBySymbol` (lines 352-392)
and `formatTokenAmount` (lines 395-400).  External services (the Jupiter swap API
and the Solana RPC connection) are modelled as environment records whose fields
give the outcome of each awaited call; a JavaScript promise rejection (a thrown
exception) is a distinguished constructor of the corresponding outcome type.
Delays are carried as exact rationals: the JavaScript engine computes
`delay *= 1.5` in binary floating point, which is exact at the default seed
`500` for the ten retries the loop can make.
-/

namespace SolanaSwap

/-! ## String helpers

JavaScript's `String.prototype.includes` and the regular expression
`/Check signature ([A-Za-z0-9]+)/` used in `executeSwap` are modelled over
character lists. -/

/-- Does the list `l` start with the list `pat`?  (Helper for substring search.) -/
def listStartsWith : List Char → List Char → Bool
  | _, [] => true
  | [], _ :: _ => false
  | a :: as, b :: bs => a == b && listStartsWith as bs

/-- Does `pat` occur as a contiguous sublist of `hay`?
Models JavaScript `hay.includes(pat)`. -/
def containsSub : List Char → List Char → Bool
  | [], pat => pat.isEmpty
  | a :: t, pat => listStartsWith (a :: t) pat || containsSub t pat

/-- Models JavaScript `s.includes(pat)` on strings. -/
def strContains (s pat : String) : Bool :=
  containsSub s.data pat.data

/-- One character of the JavaScript character class `[A-Za-z0-9]`. -/
def alnumChar (c : Char) : Bool :=
  c.isAlpha || c.isDigit

/-- Longest prefix of alphanumeric characters (the greedy `[A-Za-z0-9]+` match). -/
def takeAlnum : List Char → List Char
  | [] => []
  | c :: cs => if alnumChar c then c :: takeAlnum cs else []

/-- The literal part of the signature-recovery pattern in `executeSwap`. -/
def checkSigPat : List Char := "Check signature ".data

/-- Leftmost match of `/Check signature ([A-Za-z0-9]+)/`: scan positions left to
right; succeed at the first position where the literal is followed by a
non-empty alphanumeric run, returning that run (the capture group). -/
def findSigAux : List Char → Option (List Char)
  | [] => none
  | c :: rest =>
    let run := takeAlnum ((c :: rest).drop checkSigPat.length)
    if listStartsWith (c :: rest) checkSigPat && !run.isEmpty then some run
    else findSigAux rest

/-- Models `txError.message.match(/Check signature ([A-Za-z0-9]+)/)`, returning
the captured signature when the pattern matches. -/
def findSigStr (msg : String) : Option String :=
  (findSigAux msg.data).map (fun l => String.mk l)

/-- The timeout test in `executeSwap` line 564:
`txError.message.includes("was not confirmed") && txError.message.includes("It is unknown if it succeeded")`. -/
def timeoutLike (msg : String) : Bool :=
  strContains msg "was not confirmed" && strContains msg "It is unknown if it succeeded"

/-! ## checkTransactionStatus (src/get-tokens.js lines 459-499) -/

/-- The fields of a `getSignatureStatus` response value that the loop reads:
`status.value.err` and `status.value.confirmationStatus`. -/
structure SigStatus where
  err : Option String
  confirmationStatus : Option String
  deriving DecidableEq, Repr

/-- Outcome of one awaited `connection.getSignatureStatus` call: the promise may
reject (`throws`), or resolve with a possibly-null `value`. -/
inductive QueryResult where
  | throws
  | ok (value : Option SigStatus)
  deriving DecidableEq, Repr

/-- Outcome of the final `connection.getParsedTransaction` lookup: the promise
may reject, resolve with a transaction record, or resolve with null. -/
inductive TxLookup where
  | found
  | notFound
  | throws
  deriving DecidableEq, Repr

/-- Behaviour of the ledger connection during one `checkTransactionStatus` call:
`query i` is the outcome of the `(i+1)`-th `getSignatureStatus` call, and
`finalLookup` the outcome of the closing `getParsedTransaction` call. -/
structure PollEnv where
  query : Nat → QueryResult
  finalLookup : TxLookup

/-- The tri-state `confirmed` field of the record `checkTransactionStatus`
returns: `{confirmed: false, error}`, `{confirmed: true}` or `{confirmed: null}`. -/
inductive CheckResult where
  | failedR (error : String)
  | confirmedR
  | unknownR
  deriving DecidableEq, Repr

/-- How the `while` loop in `checkTransactionStatus` can end before the final
history lookup. -/
inductive LoopOutcome where
  | failedO (e : String)
  | confirmedO
  | exhausted
  deriving DecidableEq, Repr

/-- Does this query outcome make the loop sleep and retry (as opposed to
returning)?  True for a rejected promise, a null `value`, and a value with no
`err` whose `confirmationStatus` is not `confirmed`/`finalized`. -/
def retriesOn : QueryResult → Bool
  | QueryResult.throws => true
  | QueryResult.ok none => true
  | QueryResult.ok (some s) =>
    s.err.isNone &&
      !(s.confirmationStatus == some "confirmed" || s.confirmationStatus == some "finalized")

/-- The `while (retries < maxRetries)` loop of `checkTransactionStatus`, with
`fuel = maxRetries - retries`.  Returns the loop outcome together with the list
of delays slept (in order) and the number of `getSignatureStatus` calls made.
A thrown exception takes the same sleep-and-retry path as an inconclusive
status (source lines 480-485). -/
def pollLoop (q : Nat → QueryResult) : Nat → ℚ → Nat → LoopOutcome × List ℚ × Nat
  | _, _, 0 => (LoopOutcome.exhausted, [], 0)
  | attempt, delay, fuel + 1 =>
    match q attempt with
    | QueryResult.ok (some s) =>
      match s.err with
      | some e => (LoopOutcome.failedO e, [], 1)
      | none =>
        if s.confirmationStatus == some "confirmed" || s.confirmationStatus == some "finalized" then
          (LoopOutcome.confirmedO, [], 1)
        else
          let r := pollLoop q (attempt + 1) (delay * (3 / 2)) fuel
          (r.1, delay :: r.2.1, r.2.2 + 1)
    | QueryResult.ok none =>
      let r := pollLoop q (attempt + 1) (delay * (3 / 2)) fuel
      (r.1, delay :: r.2.1, r.2.2 + 1)
    | QueryResult.throws =>
      let r := pollLoop q (attempt + 1) (delay * (3 / 2)) fuel
      (r.1, delay :: r.2.1, r.2.2 + 1)

/-- Result of `checkTransactionStatus` together with its observable polling
trace: the tri-state `confirmed` record, the delays slept, and the number of
status queries performed. -/
structure PollResult where
  result : CheckResult
  delays : List ℚ
  queries : Nat
  deriving DecidableEq, Repr

/-- `checkTransactionStatus(connection, signature, maxRetries = 10, initialDelayMs = 500)`:
run the polling loop; if it exhausts its retries, do one final
`getParsedTransaction` lookup — a found transaction means `confirmed: true`,
anything else (null result or a rejection) means `confirmed: null`. -/
def checkTransactionStatus (env : PollEnv) (maxRetries : Nat) (initialDelayMs : ℚ) : PollResult :=
  match pollLoop env.query 0 initialDelayMs maxRetries with
  | (LoopOutcome.failedO e, ds, qn) => PollResult.mk (CheckResult.failedR e) ds qn
  | (LoopOutcome.confirmedO, ds, qn) => PollResult.mk CheckResult.confirmedR ds qn
  | (LoopOutcome.exhausted, ds, qn) =>
    match env.finalLookup with
    | TxLookup.found => PollResult.mk CheckResult.confirmedR ds qn
    | TxLookup.notFound => PollResult.mk CheckResult.unknownR ds qn
    | TxLookup.throws => PollResult.mk CheckResult.unknownR ds qn

/-! ## executeSwap (src/get-tokens.js lines 502-634) -/

/-- Outcome of the awaited `POST /swap` call: rejection, a response without a
`swapTransaction` field (which makes the code throw, caught by the outer
handler), or a usable payload. -/
inductive SwapApiResult where
  | throws
  | noPayload
  | payload
  deriving DecidableEq, Repr

/-- Behaviour of every external call `executeSwap` can make.  `sendRaw` and
`sendAndConfirm` either reject with an error message or resolve with a
transaction id; `directConfirm` is whether the `confirmTransaction` attempt
(including its blockhash/height fetches) resolves; `poll` drives the manual
`checkTransactionStatus` fallback. -/
structure SwapEnv where
  swapApi : SwapApiResult
  versionedDeser : Bool
  sendRaw : Except String String
  legacyDeser : Bool
  sendAndConfirm : Except String String
  directConfirm : Bool
  poll : PollEnv

/-- The value `executeSwap` returns: a transaction id after a positive
confirmation, `null` (every caught error and a `confirmed: false` status), or a
transaction id whose status is unknown (the code returns the id anyway,
source line 611). -/
inductive SwapOutcome where
  | confirmedSig (txid : String)
  | failed
  | unknownSig (txid : String)
  deriving DecidableEq, Repr

/-- Observable events of one `executeSwap` run, mirroring its console output and
its two submission calls. -/
inductive LogEvent where
  | usingVersioned
  | submitRaw
  | fallbackLegacy
  | submitLegacy
  | legacyTimeoutRecovered (sig : String)
  | submitted (sig : String)
  | directConfirmed
  | statusConfirmed
  | statusFailed
  | statusUnknown
  | swapFailed
  deriving DecidableEq, Repr

/-- The confirmation phase of `executeSwap` (source lines 579-613): a fixed
settle sleep, one direct `confirmTransaction` attempt, and on its failure the
manual `checkTransactionStatus` call with the default arguments `10` and `500`. -/
def confirmPhase (env : SwapEnv) (txid : String) (log : List LogEvent) :
    SwapOutcome × List LogEvent :=
  let log := log ++ [LogEvent.submitted txid]
  if env.directConfirm then
    (SwapOutcome.confirmedSig txid, log ++ [LogEvent.directConfirmed])
  else
    match (checkTransactionStatus env.poll 10 500).result with
    | CheckResult.confirmedR => (SwapOutcome.confirmedSig txid, log ++ [LogEvent.statusConfirmed])
    | CheckResult.failedR _ => (SwapOutcome.failed, log ++ [LogEvent.statusFailed])
    | CheckResult.unknownR => (SwapOutcome.unknownSig txid, log ++ [LogEvent.statusUnknown])

/-- The legacy branch of `executeSwap` (the `catch` block, source lines 548-577):
parse as a legacy transaction (a parse failure propagates to the outer handler,
which returns null); try `sendAndConfirmTransaction`, returning its id directly
on success; on failure, recover the signature from a timeout-like message and
enter the confirmation phase, otherwise rethrow to the outer handler. -/
def legacyBranch (env : SwapEnv) (log : List LogEvent) : SwapOutcome × List LogEvent :=
  if env.legacyDeser then
    match env.sendAndConfirm with
    | Except.ok txid => (SwapOutcome.confirmedSig txid, log ++ [LogEvent.submitLegacy])
    | Except.error msg =>
      if timeoutLike msg then
        match findSigStr msg with
        | some sig =>
          confirmPhase env sig
            (log ++ [LogEvent.submitLegacy, LogEvent.legacyTimeoutRecovered sig])
        | none => (SwapOutcome.failed, log ++ [LogEvent.submitLegacy, LogEvent.swapFailed])
      else (SwapOutcome.failed, log ++ [LogEvent.submitLegacy, LogEvent.swapFailed])
  else (SwapOutcome.failed, log ++ [LogEvent.swapFailed])

/-- `executeSwap(connection, wallet, quoteResponse, networkConfig)`: the quote
only determines the request body and the console display; every branch of the
control flow is decided by the environment.  Note that the `catch` around the
versioned path also captures a rejected `sendRawTransaction`, so a send failure
after a successful versioned deserialization falls into the legacy branch. -/
def executeSwap (env : SwapEnv) : SwapOutcome × List LogEvent :=
  match env.swapApi with
  | SwapApiResult.throws => (SwapOutcome.failed, [LogEvent.swapFailed])
  | SwapApiResult.noPayload => (SwapOutcome.failed, [LogEvent.swapFailed])
  | SwapApiResult.payload =>
    if env.versionedDeser then
      match env.sendRaw with
      | Except.ok txid =>
        confirmPhase env txid [LogEvent.usingVersioned, LogEvent.submitRaw]
      | Except.error _ =>
        legacyBranch env [LogEvent.usingVersioned, LogEvent.submitRaw, LogEvent.fallbackLegacy]
    else
      legacyBranch env [LogEvent.fallbackLegacy]

/-! ## findTokenBySymbol (src/get-tokens.js lines 352-392) -/

/-- A token record from the Jupiter token list.  Entries of the list have no
`isNative` property (modelled as `false`); the JavaScript spread in the special
case copies all fields and overrides `name`, `symbol` and `isNative`. -/
structure Token where
  address : String
  symbol : String
  name : String
  decimals : Nat
  tags : List String
  isNative : Bool
  deriving DecidableEq, Repr

/-- Models JavaScript `s.toUpperCase()` (character-wise upper-casing; token
symbols and the lookup strings are ASCII). -/
def strToUpper (s : String) : String :=
  String.mk (s.data.map Char.toUpper)

/-- The wrapped-SOL mint address used by the native-SOL special case. -/
def wsolMint : String := "So11111111111111111111111111111111111111112"

/-- `findTokenBySymbol(tokenList, symbol)`: the `"SOL"` special case first (only
effective when a WSOL entry is present, otherwise the code falls through), then
an exact case-insensitive symbol match, then a substring match preferring
entries tagged `verified`. -/
def findTokenBySymbol (tokenList : List Token) (symbol : String) : Option Token :=
  let sU := strToUpper symbol
  let special : Option Token :=
    if sU = "SOL" then
      match tokenList.find? (fun t => t.address == wsolMint) with
      | some w => some (Token.mk w.address "SOL" "Native SOL" w.decimals w.tags true)
      | none => none
    else none
  match special with
  | some t => some t
  | none =>
    match tokenList.find? (fun t => strToUpper t.symbol == sU) with
    | some t => some t
    | none =>
      let subMatches := tokenList.filter (fun t => containsSub (strToUpper t.symbol).data sU.data)
      if subMatches.length > 1 then
        match subMatches.find? (fun t => t.tags.contains "verified") with
        | some v => some v
        | none => subMatches.head?
      else if subMatches.length = 1 then subMatches.head?
      else none

/-! ## formatTokenAmount (src/get-tokens.js lines 395-400)

`parseFloat(amount) / Math.pow(10, decimals)` followed by
`toLocaleString('en-US', { maximumFractionDigits: decimals })`.  The amount is
an integer token amount; at such inputs with a value the double represents
exactly (in particular the concrete inputs below) the en-US formatting is:
group the integer part with commas, print at most `decimals` fractional digits
with trailing zeros removed (the locale's `minimumFractionDigits` defaults to
zero), and omit the decimal point when no fractional digit remains. -/

/-- Remove trailing `'0'` characters. -/
def stripZeros (l : List Char) : List Char :=
  (l.reverse.dropWhile (fun c => c == '0')).reverse

/-- Left-pad with `'0'` to length `n`. -/
def padZeros (n : Nat) (l : List Char) : List Char :=
  List.replicate (n - l.length) '0' ++ l

/-- Insert a comma after every three characters of a reversed digit list
(en-US thousands grouping). -/
def commaGroupRev : List Char → List Char
  | a :: b :: c :: d :: rest => a :: b :: c :: ',' :: commaGroupRev (d :: rest)
  | l => l

/-- `formatTokenAmount(amount, decimals)` on an exactly-represented integer
amount. -/
def formatTokenAmount (amount : Nat) (decimals : Nat) : String :=
  let ip := amount / 10 ^ decimals
  let fp := amount % 10 ^ decimals
  let ipStr := String.mk (commaGroupRev (toString ip).data.reverse).reverse
  let fracDigits := stripZeros (padZeros decimals (toString fp).data)
  if fracDigits.isEmpty then ipStr else ipStr ++ "." ++ String.mk fracDigits

/-! ## Lemmas about the polling loop -/

theorem pollLoop_zero (q : Nat → QueryResult) (a : Nat) (d : ℚ) :
    pollLoop q a d 0 = (LoopOutcome.exhausted, [], 0) := rfl

theorem pollLoop_throwsStep (q : Nat → QueryResult) (a : Nat) (d : ℚ) (n : Nat)
    (hq : q a = QueryResult.throws) :
    pollLoop q a d (n + 1) =
      ((pollLoop q (a + 1) (d * (3 / 2)) n).1,
        d :: (pollLoop q (a + 1) (d * (3 / 2)) n).2.1,
        (pollLoop q (a + 1) (d * (3 / 2)) n).2.2 + 1) := by
  simp [pollLoop, hq]

theorem pollLoop_okNoneStep (q : Nat → QueryResult) (a : Nat) (d : ℚ) (n : Nat)
    (hq : q a = QueryResult.ok none) :
    pollLoop q a d (n + 1) =
      ((pollLoop q (a + 1) (d * (3 / 2)) n).1,
        d :: (pollLoop q (a + 1) (d * (3 / 2)) n).2.1,
        (pollLoop q (a + 1) (d * (3 / 2)) n).2.2 + 1) := by
  simp [pollLoop, hq]

theorem pollLoop_errStep (q : Nat → QueryResult) (a : Nat) (d : ℚ) (n : Nat)
    (s : SigStatus) (e : String)
    (hq : q a = QueryResult.ok (some s)) (he : s.err = some e) :
    pollLoop q a d (n + 1) = (LoopOutcome.failedO e, [], 1) := by
  simp [pollLoop, hq, he]

theorem pollLoop_confirmStep (q : Nat → QueryResult) (a : Nat) (d : ℚ) (n : Nat)
    (s : SigStatus)
    (hq : q a = QueryResult.ok (some s)) (he : s.err = none)
    (hc : (s.confirmationStatus == some "confirmed" ||
      s.confirmationStatus == some "finalized") = true) :
    pollLoop q a d (n + 1) = (LoopOutcome.confirmedO, [], 1) := by
  simp [pollLoop, hq, he, hc]

theorem pollLoop_inconclusiveStep (q : Nat → QueryResult) (a : Nat) (d : ℚ) (n : Nat)
    (s : SigStatus)
    (hq : q a = QueryResult.ok (some s)) (he : s.err = none)
    (hc : (s.confirmationStatus == some "confirmed" ||
      s.confirmationStatus == some "finalized") = false) :
    pollLoop q a d (n + 1) =
      ((pollLoop q (a + 1) (d * (3 / 2)) n).1,
        d :: (pollLoop q (a + 1) (d * (3 / 2)) n).2.1,
        (pollLoop q (a + 1) (d * (3 / 2)) n).2.2 + 1) := by
  simp [pollLoop, hq, he, hc]

theorem pollLoop_retryStep (q : Nat → QueryResult) (a : Nat) (d : ℚ) (n : Nat)
    (h : retriesOn (q a) = true) :
    pollLoop q a d (n + 1) =
      ((pollLoop q (a + 1) (d * (3 / 2)) n).1,
        d :: (pollLoop q (a + 1) (d * (3 / 2)) n).2.1,
        (pollLoop q (a + 1) (d * (3 / 2)) n).2.2 + 1) := by
  cases hq : q a with
  | throws => exact pollLoop_throwsStep q a d n hq
  | ok v =>
    cases v with
    | none => exact pollLoop_okNoneStep q a d n hq
    | some s =>
      rw [hq] at h
      simp only [retriesOn, Bool.and_eq_true, Option.isNone_iff_eq_none,
        Bool.not_eq_true'] at h
      exact pollLoop_inconclusiveStep q a d n s hq h.1 h.2

/-- Appending the current delay in front of a geometric tail gives a geometric
sequence with ratio `3 / 2`. -/
theorem geomCons (d : ℚ) {rest : List ℚ}
    (hrest : ∀ i, i < rest.length → rest.getD i 0 = d * (3 / 2) * (3 / 2) ^ i) :
    ∀ i, i < (d :: rest).length → (d :: rest).getD i 0 = d * (3 / 2) ^ i := by
  intro i hi
  cases i with
  | zero => simp
  | succ j =>
    have hj : j < rest.length := by simpa using hi
    have hx := hrest j hj
    simp only [List.getD_cons_succ]
    rw [hx]; ring

/-- The loop performs at most `fuel` queries, and the delays it sleeps form the
geometric sequence `d, d·(3/2), d·(3/2)², …`. -/
theorem pollLoop_spec (q : Nat → QueryResult) :
    ∀ (fuel a : Nat) (d : ℚ),
      (pollLoop q a d fuel).2.2 ≤ fuel ∧
        ∀ i, i < (pollLoop q a d fuel).2.1.length →
          (pollLoop q a d fuel).2.1.getD i 0 = d * (3 / 2) ^ i := by
  intro fuel
  induction fuel with
  | zero => intro a d; simp [pollLoop]
  | succ n ih =>
    intro a d
    obtain ⟨ihq, ihd⟩ := ih (a + 1) (d * (3 / 2))
    cases hq : q a with
    | throws =>
      rw [pollLoop_throwsStep q a d n hq]
      exact ⟨Nat.succ_le_succ ihq, geomCons d ihd⟩
    | ok v =>
      cases v with
      | none =>
        rw [pollLoop_okNoneStep q a d n hq]
        exact ⟨Nat.succ_le_succ ihq, geomCons d ihd⟩
      | some s =>
        cases herr : s.err with
        | some e =>
          rw [pollLoop_errStep q a d n s e hq herr]
          exact ⟨Nat.succ_le_succ (Nat.zero_le n), by simp⟩
        | none =>
          cases hc : (s.confirmationStatus == some "confirmed" ||
              s.confirmationStatus == some "finalized") with
          | true =>
            rw [pollLoop_confirmStep q a d n s hq herr hc]
            exact ⟨Nat.succ_le_succ (Nat.zero_le n), by simp⟩
          | false =>
            rw [pollLoop_inconclusiveStep q a d n s hq herr hc]
            exact ⟨Nat.succ_le_succ ihq, geomCons d ihd⟩

/-- When every query outcome is inconclusive the loop runs its entire budget and
ends exhausted. -/
theorem pollLoop_exhaust (q : Nat → QueryResult) :
    ∀ (fuel a : Nat) (d : ℚ),
      (∀ j, j < fuel → retriesOn (q (a + j)) = true) →
      (pollLoop q a d fuel).1 = LoopOutcome.exhausted ∧
        (pollLoop q a d fuel).2.2 = fuel := by
  intro fuel
  induction fuel with
  | zero => intro a d _; simp [pollLoop]
  | succ n ih =>
    intro a d h
    have h0 : retriesOn (q a) = true := by simpa using h 0 (Nat.succ_pos n)
    rw [pollLoop_retryStep q a d n h0]
    have ihr := ih (a + 1) (d * (3 / 2)) (fun j hj => by
      have hx := h (j + 1) (by omega)
      have hsh : a + (j + 1) = a + 1 + j := by omega
      rwa [hsh] at hx)
    refine ⟨ihr.1, ?_⟩
    show (pollLoop q (a + 1) (d * (3 / 2)) n).2.2 + 1 = n + 1
    rw [ihr.2]

/-- A query result carrying an error field stops the loop at once: the result is
`failedO` with that error, after exactly `k + 1` queries, however much retry
budget is left. -/
theorem pollLoop_err (q : Nat → QueryResult) :
    ∀ (k fuel a : Nat) (d : ℚ) (s : SigStatus) (e : String),
      k < fuel →
      (∀ j, j < k → retriesOn (q (a + j)) = true) →
      q (a + k) = QueryResult.ok (some s) → s.err = some e →
      (pollLoop q a d fuel).1 = LoopOutcome.failedO e ∧
        (pollLoop q a d fuel).2.2 = k + 1 := by
  intro k
  induction k with
  | zero =>
    intro fuel a d s e hk hpre hq he
    cases fuel with
    | zero => omega
    | succ m =>
      have hq' : q a = QueryResult.ok (some s) := by simpa using hq
      rw [pollLoop_errStep q a d m s e hq' he]
      exact ⟨rfl, rfl⟩
  | succ n ih =>
    intro fuel a d s e hk hpre hq he
    cases fuel with
    | zero => omega
    | succ m =>
      have h0 : retriesOn (q a) = true := by simpa using hpre 0 (Nat.succ_pos n)
      rw [pollLoop_retryStep q a d m h0]
      have ihr := ih m (a + 1) (d * (3 / 2)) s e (by omega)
        (fun j hj => by
          have hx := hpre (j + 1) (by omega)
          have hsh : a + (j + 1) = a + 1 + j := by omega
          rwa [hsh] at hx)
        (by
          have hsh : a + (n + 1) = a + 1 + n := by omega
          rwa [hsh] at hq) he
      refine ⟨ihr.1, ?_⟩
      show (pollLoop q (a + 1) (d * (3 / 2)) m).2.2 + 1 = n + 1 + 1
      rw [ihr.2]

/-- A query that throws is handled exactly like a query that resolves with a
null value: replacing the one by the other changes nothing about the loop. -/
theorem pollLoop_throwAsRetry (q : Nat → QueryResult) (k : Nat)
    (hk : q k = QueryResult.throws) :
    ∀ (fuel a : Nat) (d : ℚ),
      pollLoop q a d fuel =
        pollLoop (fun i => if i = k then QueryResult.ok none else q i) a d fuel := by
  intro fuel
  induction fuel with
  | zero => intro a d; rfl
  | succ n ih =>
    intro a d
    by_cases ha : a = k
    · subst ha
      rw [pollLoop_throwsStep q a d n hk,
        pollLoop_okNoneStep (fun i => if i = a then QueryResult.ok none else q i) a d n
          (by simp),
        ih (a + 1) (d * (3 / 2))]
    · have hq' : (fun i => if i = k then QueryResult.ok none else q i) a = q a := by
        simp [ha]
      cases hqa : q a with
      | throws =>
        rw [pollLoop_throwsStep q a d n hqa,
          pollLoop_throwsStep _ a d n (hq'.trans hqa), ih (a + 1) (d * (3 / 2))]
      | ok v =>
        cases v with
        | none =>
          rw [pollLoop_okNoneStep q a d n hqa,
            pollLoop_okNoneStep _ a d n (hq'.trans hqa), ih (a + 1) (d * (3 / 2))]
        | some s =>
          cases herr : s.err with
          | some e =>
            rw [pollLoop_errStep q a d n s e hqa herr,
              pollLoop_errStep _ a d n s e (hq'.trans hqa) herr]
          | none =>
            cases hc : (s.confirmationStatus == some "confirmed" ||
                s.confirmationStatus == some "finalized") with
            | true =>
              rw [pollLoop_confirmStep q a d n s hqa herr hc,
                pollLoop_confirmStep _ a d n s (hq'.trans hqa) herr hc]
            | false =>
              rw [pollLoop_inconclusiveStep q a d n s hqa herr hc,
                pollLoop_inconclusiveStep _ a d n s (hq'.trans hqa) herr hc,
                ih (a + 1) (d * (3 / 2))]

/-! ## Bridging lemmas from the loop to checkTransactionStatus -/

theorem checkStatus_shape (env : PollEnv) (n : Nat) (d0 : ℚ) :
    (checkTransactionStatus env n d0).delays = (pollLoop env.query 0 d0 n).2.1 ∧
      (checkTransactionStatus env n d0).queries = (pollLoop env.query 0 d0 n).2.2 := by
  rcases hp : pollLoop env.query 0 d0 n with ⟨o, ds, qn⟩
  unfold checkTransactionStatus
  rw [hp]
  cases o with
  | failedO e => exact ⟨rfl, rfl⟩
  | confirmedO => exact ⟨rfl, rfl⟩
  | exhausted => cases env.finalLookup <;> exact ⟨rfl, rfl⟩

theorem checkStatus_of_failed (env : PollEnv) (n : Nat) (d0 : ℚ) (e : String)
    (h : (pollLoop env.query 0 d0 n).1 = LoopOutcome.failedO e) :
    (checkTransactionStatus env n d0).result = CheckResult.failedR e := by
  rcases hp : pollLoop env.query 0 d0 n with ⟨o, ds, qn⟩
  rw [hp] at h
  unfold checkTransactionStatus
  rw [hp]
  have ho : o = LoopOutcome.failedO e := h
  subst ho
  rfl

theorem checkStatus_of_exhausted (env : PollEnv) (n : Nat) (d0 : ℚ)
    (h : (pollLoop env.query 0 d0 n).1 = LoopOutcome.exhausted) :
    (checkTransactionStatus env n d0).result =
      (match env.finalLookup with
        | TxLookup.found => CheckResult.confirmedR
        | TxLookup.notFound => CheckResult.unknownR
        | TxLookup.throws => CheckResult.unknownR) := by
  rcases hp : pollLoop env.query 0 d0 n with ⟨o, ds, qn⟩
  rw [hp] at h
  unfold checkTransactionStatus
  rw [hp]
  have ho : o = LoopOutcome.exhausted := h
  subst ho
  cases env.finalLookup <;> rfl

/-! ## Lemmas about the confirmation phase of executeSwap -/

theorem confirmPhase_mem (env : SwapEnv) (t : String) (l : List LogEvent) (x : LogEvent)
    (hx : x ∈ l) : x ∈ (confirmPhase env t l).2 := by
  unfold confirmPhase
  cases hdc : env.directConfirm with
  | true => simp [hx]
  | false =>
    cases hres : (checkTransactionStatus env.poll 10 500).result <;> simp [hx]

theorem confirmPhase_mem_submitted (env : SwapEnv) (t : String) (l : List LogEvent) :
    LogEvent.submitted t ∈ (confirmPhase env t l).2 := by
  unfold confirmPhase
  cases hdc : env.directConfirm with
  | true => simp
  | false =>
    cases hres : (checkTransactionStatus env.poll 10 500).result <;> simp

theorem confirmPhase_sig (env : SwapEnv) (t : String) (l : List LogEvent) (s : String)
    (hs : (confirmPhase env t l).1 = SwapOutcome.confirmedSig s ∨
      (confirmPhase env t l).1 = SwapOutcome.unknownSig s) :
    s = t := by
  unfold confirmPhase at hs
  cases hdc : env.directConfirm with
  | true =>
    rw [hdc] at hs
    simp only [if_true] at hs
    rcases hs with hs | hs
    · exact (SwapOutcome.confirmedSig.injEq t s ▸ hs).symm
    · exact absurd hs (by simp)
  | false =>
    rw [hdc] at hs
    simp only [Bool.false_eq_true, if_false] at hs
    cases hres : (checkTransactionStatus env.poll 10 500).result with
    | failedR e => rw [hres] at hs; rcases hs with hs | hs <;> exact absurd hs (by simp)
    | confirmedR =>
      rw [hres] at hs
      rcases hs with hs | hs
      · exact (SwapOutcome.confirmedSig.injEq t s ▸ hs).symm
      · exact absurd hs (by simp)
    | unknownR =>
      rw [hres] at hs
      rcases hs with hs | hs
      · exact absurd hs (by simp)
      · exact (SwapOutcome.unknownSig.injEq t s ▸ hs).symm

/-! ## Claim theorems -/

/-- C1: for every behaviour of the quote service and the ledger connection
(success, error response, thrown exception), `executeSwap` returns normally
with exactly one of three outcomes — a signature with confirmation, null, or a
signature with unknown status.  The environment covers every fallible external
call, and a rejection anywhere is one of its constructors, so totality of the
function is the no-escaping-exception property. -/
theorem executeSwapTrichotomy (env : SwapEnv) :
    (∃ s, (executeSwap env).1 = SwapOutcome.confirmedSig s) ∨
      (executeSwap env).1 = SwapOutcome.failed ∨
      ∃ s, (executeSwap env).1 = SwapOutcome.unknownSig s := by
  cases (executeSwap env).1 with
  | confirmedSig s => exact Or.inl ⟨s, rfl⟩
  | failed => exact Or.inr (Or.inl rfl)
  | unknownSig s => exact Or.inr (Or.inr ⟨s, rfl⟩)

/-- C2: during confirmation polling, a status query whose response value
carries an error field makes `checkTransactionStatus` return the Failed record
(`confirmed: false` with that error as reason) immediately: when the error
shows up at attempt `k`, exactly `k + 1` status queries are performed, however
many of the `n` budgeted retries remain. -/
theorem errorShortCircuitsRetries (env : PollEnv) (n k : Nat) (d0 : ℚ)
    (s : SigStatus) (e : String)
    (hk : k < n)
    (hpre : ∀ j, j < k → retriesOn (env.query j) = true)
    (hq : env.query k = QueryResult.ok (some s))
    (he : s.err = some e) :
    (checkTransactionStatus env n d0).result = CheckResult.failedR e ∧
      (checkTransactionStatus env n d0).queries = k + 1 := by
  have h := pollLoop_err env.query k n 0 d0 s e hk
    (fun j hj => by simpa using hpre j hj)
    (by simpa using hq) he
  exact ⟨checkStatus_of_failed env n d0 e h.1,
    by rw [(checkStatus_shape env n d0).2, h.2]⟩

/-- Environment whose first status query reports an error field. -/
def errEnv : PollEnv :=
  PollEnv.mk (fun _ => QueryResult.ok (some (SigStatus.mk (some "InstructionError") none)))
    TxLookup.found

/-- Witness for C2: the error at attempt 0 stops a 10-retry budget after one
query. -/
theorem errorShortCircuitsRetries_w :
    (checkTransactionStatus errEnv 10 500).result = CheckResult.failedR "InstructionError" ∧
      (checkTransactionStatus errEnv 10 500).queries = 0 + 1 :=
  errorShortCircuitsRetries errEnv 10 0 500
    (SigStatus.mk (some "InstructionError") none) "InstructionError"
    (by omega) (fun j hj => absurd hj (by omega)) rfl rfl

/-- C3: the confirmation polling loop is deterministic: the delay slept before
retry `i` is `d0 * (3/2)^i` (the code fixes the multiplier at `1.5`), and at
most `n` status queries happen before the loop falls through to the history
lookup. -/
theorem pollingDeterministicGeometric (env : PollEnv) (n : Nat) (d0 : ℚ) :
    (checkTransactionStatus env n d0).queries ≤ n ∧
      ∀ i, i < (checkTransactionStatus env n d0).delays.length →
        (checkTransactionStatus env n d0).delays.getD i 0 = d0 * (3 / 2) ^ i := by
  obtain ⟨hd, hq⟩ := checkStatus_shape env n d0
  rw [hd, hq]
  exact pollLoop_spec env.query n 0 d0

/-- Environment whose status queries never resolve a status. -/
def retryAllEnv : PollEnv :=
  PollEnv.mk (fun _ => QueryResult.ok none) TxLookup.notFound

/-- Witness for C3: with seed 500 and budget 3 the third delay is
`500 * (3/2)^2` and no more than 3 queries happen. -/
theorem pollingDeterministicGeometric_w :
    (checkTransactionStatus retryAllEnv 3 500).queries ≤ 3 ∧
      (checkTransactionStatus retryAllEnv 3 500).delays.getD 2 0 = 500 * (3 / 2) ^ 2 :=
  ⟨(pollingDeterministicGeometric retryAllEnv 3 500).1,
    (pollingDeterministicGeometric retryAllEnv 3 500).2 2 (by decide)⟩

/-- C4: when polling exhausts all retries without a definitive status and the
final `getParsedTransaction` lookup finds the transaction, the result is
Confirmed — and `executeSwap`, which calls the check with budget 10 and seed
500, returns the submitted signature as confirmed, not as unknown. -/
theorem exhaustedHistoryConfirms (env : PollEnv) (n : Nat) (d0 : ℚ)
    (senv : SwapEnv) (txid : String)
    (hall : ∀ j, j < n → retriesOn (env.query j) = true)
    (hfl : env.finalLookup = TxLookup.found)
    (hpoll : senv.poll = env) (hn : n = 10) (hd : d0 = 500)
    (hapi : senv.swapApi = SwapApiResult.payload)
    (hver : senv.versionedDeser = true)
    (hsend : senv.sendRaw = Except.ok txid)
    (hdc : senv.directConfirm = false) :
    (checkTransactionStatus env n d0).result = CheckResult.confirmedR ∧
      (executeSwap senv).1 = SwapOutcome.confirmedSig txid := by
  have hx := pollLoop_exhaust env.query n 0 d0 (fun j hj => by simpa using hall j hj)
  have hres : (checkTransactionStatus env n d0).result = CheckResult.confirmedR := by
    rw [checkStatus_of_exhausted env n d0 hx.1, hfl]
  refine ⟨hres, ?_⟩
  subst hn; subst hd; subst hpoll
  simp [executeSwap, hapi, hver, hsend, confirmPhase, hdc, hres]

/-- Poll environment for the C4 witness: inconclusive queries, history hit. -/
def exhaustFoundEnv : PollEnv :=
  PollEnv.mk (fun _ => QueryResult.ok none) TxLookup.found

/-- Swap environment for the C4 witness. -/
def c4SwapEnv : SwapEnv :=
  SwapEnv.mk SwapApiResult.payload true (Except.ok "TX4") true (Except.ok "unused") false
    exhaustFoundEnv

/-- Witness for C4. -/
theorem exhaustedHistoryConfirms_w :
    (checkTransactionStatus exhaustFoundEnv 10 500).result = CheckResult.confirmedR ∧
      (executeSwap c4SwapEnv).1 = SwapOutcome.confirmedSig "TX4" :=
  exhaustedHistoryConfirms exhaustFoundEnv 10 500 c4SwapEnv "TX4"
    (fun _ _ => rfl) rfl rfl rfl rfl rfl rfl rfl rfl

/-- C5: when polling exhausts all retries and the final history lookup finds
nothing or itself throws, `checkTransactionStatus` reports the unknown status
and `executeSwap` returns the Unknown outcome still carrying the signature
obtained at submission. -/
theorem unknownKeepsSignature (env : PollEnv) (n : Nat) (d0 : ℚ)
    (senv : SwapEnv) (txid : String)
    (hall : ∀ j, j < n → retriesOn (env.query j) = true)
    (hfl : env.finalLookup = TxLookup.notFound ∨ env.finalLookup = TxLookup.throws)
    (hpoll : senv.poll = env) (hn : n = 10) (hd : d0 = 500)
    (hapi : senv.swapApi = SwapApiResult.payload)
    (hver : senv.versionedDeser = true)
    (hsend : senv.sendRaw = Except.ok txid)
    (hdc : senv.directConfirm = false) :
    (checkTransactionStatus env n d0).result = CheckResult.unknownR ∧
      (executeSwap senv).1 = SwapOutcome.unknownSig txid := by
  have hx := pollLoop_exhaust env.query n 0 d0 (fun j hj => by simpa using hall j hj)
  have hres : (checkTransactionStatus env n d0).result = CheckResult.unknownR := by
    rcases hfl with h | h <;> rw [checkStatus_of_exhausted env n d0 hx.1, h]
  refine ⟨hres, ?_⟩
  subst hn; subst hd; subst hpoll
  simp [executeSwap, hapi, hver, hsend, confirmPhase, hdc, hres]

/-- Poll environment for the C5 witness: inconclusive queries, rejected final
lookup. -/
def exhaustLostEnv : PollEnv :=
  PollEnv.mk (fun _ => QueryResult.throws) TxLookup.throws

/-- Swap environment for the C5 witness. -/
def c5SwapEnv : SwapEnv :=
  SwapEnv.mk SwapApiResult.payload true (Except.ok "TX5") true (Except.ok "unused") false
    exhaustLostEnv

/-- Witness for C5. -/
theorem unknownKeepsSignature_w :
    (checkTransactionStatus exhaustLostEnv 10 500).result = CheckResult.unknownR ∧
      (executeSwap c5SwapEnv).1 = SwapOutcome.unknownSig "TX5" :=
  unknownKeepsSignature exhaustLostEnv 10 500 c5SwapEnv "TX5"
    (fun _ _ => rfl) (Or.inr rfl) rfl rfl rfl rfl rfl rfl rfl

/-- C6: on the legacy path, when `sendAndConfirmTransaction` fails with a
timeout-like message from which a signature parses, execution enters the
confirmation phase with exactly that signature and every Confirmed or Unknown
outcome carries it; when the failure is not timeout-like or no signature
parses, the error propagates to the outer handler as a hard failure (the null
return). -/
theorem legacyTimeoutSignature (senv : SwapEnv) (msg : String)
    (hapi : senv.swapApi = SwapApiResult.payload)
    (hver : senv.versionedDeser = false)
    (hleg : senv.legacyDeser = true)
    (hsc : senv.sendAndConfirm = Except.error msg) :
    (∀ sig, timeoutLike msg = true → findSigStr msg = some sig →
      LogEvent.legacyTimeoutRecovered sig ∈ (executeSwap senv).2 ∧
        LogEvent.submitted sig ∈ (executeSwap senv).2 ∧
        ∀ s, ((executeSwap senv).1 = SwapOutcome.confirmedSig s ∨
            (executeSwap senv).1 = SwapOutcome.unknownSig s) → s = sig) ∧
      ((timeoutLike msg = false ∨ findSigStr msg = none) →
        (executeSwap senv).1 = SwapOutcome.failed) := by
  constructor
  · intro sig ht hf
    have hrw : executeSwap senv =
        confirmPhase senv sig
          [LogEvent.fallbackLegacy, LogEvent.submitLegacy,
            LogEvent.legacyTimeoutRecovered sig] := by
      simp [executeSwap, legacyBranch, hapi, hver, hleg, hsc, ht, hf]
    rw [hrw]
    refine ⟨confirmPhase_mem senv sig _ _ (by simp), confirmPhase_mem_submitted senv sig _, ?_⟩
    intro s hs
    exact confirmPhase_sig senv sig _ s hs
  · intro hor
    rcases hor with ht | hf
    · simp [executeSwap, legacyBranch, hapi, hver, hleg, hsc, ht]
    · cases ht : timeoutLike msg with
      | false => simp [executeSwap, legacyBranch, hapi, hver, hleg, hsc, ht]
      | true => simp [executeSwap, legacyBranch, hapi, hver, hleg, hsc, ht, hf]

/-- The timeout-like error message used by the C6 witness. -/
def c6Msg : String :=
  "Transaction was not confirmed in 60.00 seconds. It is unknown if it succeeded or failed. Check signature 3nXyZ7 using the Solana Explorer."

/-- Swap environment for the C6 witness: versioned deserialization fails and
the legacy combined call rejects with the timeout-like message. -/
def c6SwapEnv : SwapEnv :=
  SwapEnv.mk SwapApiResult.payload false (Except.error "unused") true
    (Except.error c6Msg) true exhaustLostEnv

/-- Witness for C6: the parsed signature reaches the confirmation phase. -/
theorem legacyTimeoutSignature_w :
    LogEvent.legacyTimeoutRecovered "3nXyZ7" ∈ (executeSwap c6SwapEnv).2 :=
  (((legacyTimeoutSignature c6SwapEnv c6Msg rfl rfl rfl rfl).1 "3nXyZ7"
    (by decide) (by decide)).1)

/-- Swap environment demonstrating C7's failure: the versioned deserialization
succeeds, the raw submission rejects, and the payload also parses as a legacy
transaction. -/
def c7SwapEnv : SwapEnv :=
  SwapEnv.mk SwapApiResult.payload true (Except.error "Node is behind") true
    (Except.ok "LEGACYTX2") true exhaustLostEnv

/-- C7 (refuted by the code): the `catch` wrapped around the whole versioned
block also captures a rejected `sendRawTransaction`, so a failure arising after
a successful versioned deserialization does divert execution into the legacy
path — here the same payload is then submitted a second time through
`sendAndConfirmTransaction` and its result is returned. -/
theorem versionedSendFailureEntersLegacy :
    (executeSwap c7SwapEnv).1 = SwapOutcome.confirmedSig "LEGACYTX2" ∧
      LogEvent.usingVersioned ∈ (executeSwap c7SwapEnv).2 ∧
      LogEvent.submitRaw ∈ (executeSwap c7SwapEnv).2 ∧
      LogEvent.fallbackLegacy ∈ (executeSwap c7SwapEnv).2 ∧
      LogEvent.submitLegacy ∈ (executeSwap c7SwapEnv).2 := by
  decide

/-- C8 (refuted): `formatTokenAmount(1000000, 6)` does not produce `"1.00"` —
the en-US locale format has no minimum fraction digits, so the trailing zeros
are dropped. -/
theorem formatScenarioA_cx : ¬ (formatTokenAmount 1000000 6 = "1.00") := by
  decide

/-- C8 as amended: `formatTokenAmount(1000000, 6)` produces `"1"`. -/
theorem formatScenarioA : formatTokenAmount 1000000 6 = "1" := by
  decide

/-- C9 (refuted as universally stated): on a token list without the WSOL mint
entry — here the empty list — the `"SOL"` lookup does not return a native
record at all. -/
theorem solLookupSynthetic_cx :
    ¬ ∃ t, findTokenBySymbol [] "SOL" = some t ∧ t.isNative = true := by
  rintro ⟨t, ht, -⟩
  have hnone : findTokenBySymbol [] "SOL" = none := by decide
  rw [hnone] at ht
  exact Option.noConfusion ht

/-- C9 as amended: on every token list containing the WSOL mint entry, a
lookup of `"SOL"` in any letter case returns the synthetic native-SOL record —
`isNative = true`, symbol `"SOL"`, name `"Native SOL"` — built from that WSOL
entry, even though no such record exists verbatim in the list. -/
theorem solLookupSynthetic (l : List Token) (s : String)
    (hs : strToUpper s = "SOL")
    (hw : ∃ w ∈ l, w.address = wsolMint) :
    ∃ t, findTokenBySymbol l s = some t ∧ t.isNative = true ∧
      t.symbol = "SOL" ∧ t.name = "Native SOL" ∧ t.address = wsolMint := by
  obtain ⟨w, hwl, hwa⟩ := hw
  have hsome : (l.find? (fun t => t.address == wsolMint)).isSome := by
    rw [List.find?_isSome]
    exact ⟨w, hwl, by simp [hwa]⟩
  obtain ⟨w0, hw0⟩ := Option.isSome_iff_exists.mp hsome
  have hw0a : w0.address = wsolMint := by
    have hx := List.find?_some hw0
    simpa using hx
  refine ⟨Token.mk w0.address "SOL" "Native SOL" w0.decimals w0.tags true,
    ?_, rfl, rfl, rfl, hw0a⟩
  simp only [findTokenBySymbol]
  rw [hs]
  simp [hw0]

/-- The WSOL list entry used by the C9 witness. -/
def wsolEntry : Token :=
  Token.mk wsolMint "WSOL" "Wrapped SOL" 9 [] false

/-- Witness for C9 (amended): a lower-case `"sol"` lookup on a singleton list
holding only the WSOL entry. -/
theorem solLookupSynthetic_w :
    ∃ t, findTokenBySymbol [wsolEntry] "sol" = some t ∧ t.isNative = true ∧
      t.symbol = "SOL" ∧ t.name = "Native SOL" ∧ t.address = wsolMint :=
  solLookupSynthetic [wsolEntry] "sol" (by decide) ⟨wsolEntry, by simp, rfl⟩

/-- C10: `checkTransactionStatus` is total — its `confirmed` field is exactly
one of true, false or null — and a status query that throws does not
short-circuit to Failed: it is handled exactly like an inconclusive response,
consuming one retry of the same budget with the same geometric delay, so
replacing the throw by a null response changes nothing about the run. -/
theorem statusTotalThrowRetries (env : PollEnv) (n k : Nat) (d0 : ℚ)
    (hk : env.query k = QueryResult.throws) :
    ((checkTransactionStatus env n d0).result = CheckResult.confirmedR ∨
        (checkTransactionStatus env n d0).result = CheckResult.unknownR ∨
        ∃ e, (checkTransactionStatus env n d0).result = CheckResult.failedR e) ∧
      checkTransactionStatus env n d0 =
        checkTransactionStatus
          (PollEnv.mk (fun i => if i = k then QueryResult.ok none else env.query i)
            env.finalLookup) n d0 := by
  constructor
  · cases (checkTransactionStatus env n d0).result with
    | failedR e => exact Or.inr (Or.inr ⟨e, rfl⟩)
    | confirmedR => exact Or.inl rfl
    | unknownR => exact Or.inr (Or.inl rfl)
  · unfold checkTransactionStatus
    rw [pollLoop_throwAsRetry env.query k hk n 0 d0]

/-- Witness for C10: a run whose first query throws equals the run where that
throw is replaced by a null response. -/
theorem statusTotalThrowRetries_w :
    checkTransactionStatus exhaustLostEnv 2 500 =
      checkTransactionStatus
        (PollEnv.mk (fun i => if i = 0 then QueryResult.ok none else exhaustLostEnv.query i)
          exhaustLostEnv.finalLookup) 2 500 :=
  (statusTotalThrowRetries exhaustLostEnv 2 0 500 rfl).2

end SolanaSwap
